import Mathlib

/-!
Verification of the catalog core of `maps4fsui`
(`src/maps4fsui/generator/my_maps.py`).

The Python source is shallowly embedded as follows.

* Python strings are Lean `String`s; the handful of Python string primitives the
  code uses (`str.lower`, `str.strip`, `"pat" in s`, `str.replace(".zip", "")`,
  `os.path.basename`) are re-implemented below over `String.data` with exactly
  Python's semantics, and the embedding reasons about those re-implementations.
* The filesystem is an explicit state `FS`: a finite association list from file
  path to textual contents, a list of existing directories, and a counter of
  archive-compression operations (the call-count probe used to observe whether
  an archive was recompressed).  `os.path.join a b` is `a ++ "/" ++ b`.
* Fallible filesystem calls (`shutil.rmtree`, `shutil.make_archive`) return
  `Except Unit FS`; `shutil.make_archive` follows CPython's behaviour of
  raising (an `os.stat` failure) when the source directory does not exist, and
  of creating `base ++ ".zip"` when it does.
* The external `maps4fs` settings classes are not part of `src/`, so
  `MainSettings` and `GenerationSettings` are modelled from the spec (section 3)
  and the JSON + `from_json` parsing stage is abstracted into fallible parse
  functions passed as parameters where needed.
-/

/-- Python `str.lower()`, modelled character-by-character with `Char.toLower`. -/
def pyLower (s : String) : String :=
  String.mk (s.data.map Char.toLower)

/-- Python `str.strip()`: drop leading and trailing whitespace. -/
def pyStrip (s : String) : String :=
  String.mk (((s.data.dropWhile Char.isWhitespace).reverse.dropWhile Char.isWhitespace).reverse)

/-- Python `os.path.basename`: the part of the path after the last slash. -/
def basename (s : String) : String :=
  String.mk ((s.data.reverse.takeWhile (fun c => c != '/')).reverse)

/-- Python's substring test `pat in hay` on strings (contiguous substring). -/
def hasSubstr (pat : List Char) : List Char → Bool
  | [] => pat.isEmpty
  | c :: t => pat.isPrefixOf (c :: t) || hasSubstr pat t

/-- The character sequence of the literal `".zip"`. -/
def zipPat : List Char := ['.', 'z', 'i', 'p']

/-- Fuel-driven worker for `stripZip`; Python's `str.replace` scans left to
right, removing every non-overlapping occurrence of the pattern.  Fuel at least
the length of the list makes the result fuel-independent. -/
def stripZipFuel : Nat → List Char → List Char
  | 0, l => l
  | _ + 1, [] => []
  | fuel + 1, c :: rest =>
    if zipPat.isPrefixOf (c :: rest) then stripZipFuel fuel ((c :: rest).drop 4)
    else c :: stripZipFuel fuel rest

/-- Python `s.replace(".zip", "")`: remove every occurrence of `".zip"`. -/
def stripZip (s : String) : String :=
  String.mk (stripZipFuel s.data.length s.data)

/-- Abstract filesystem state: file contents by path, the set of existing
directories, and a count of archive compressions performed so far. -/
structure FS where
  files : List (String × String)
  dirs : List String
  zipCount : Nat
deriving Repr, DecidableEq

def FS.isFile (fs : FS) (p : String) : Bool :=
  fs.files.any (fun f => f.1 == p)

def FS.isDir (fs : FS) (p : String) : Bool :=
  fs.dirs.any (fun d => d == p)

def FS.readFile (fs : FS) (p : String) : String :=
  ((fs.files.find? (fun f => f.1 == p)).map Prod.snd).getD ""

def FS.writeFile (fs : FS) (p c : String) : FS :=
  { fs with files := (p, c) :: fs.files.filter (fun f => f.1 != p) }

def FS.removeFile (fs : FS) (p : String) : FS :=
  { fs with files := fs.files.filter (fun f => f.1 != p) }

/-- True when path `p` lies strictly inside directory `d`. -/
def pathUnder (d p : String) : Bool :=
  (d ++ "/").data.isPrefixOf p.data

/-- Remove a directory, every directory below it and every file below it. -/
def FS.removeTree (fs : FS) (d : String) : FS :=
  { fs with
    files := fs.files.filter (fun f => !pathUnder d f.1),
    dirs := fs.dirs.filter (fun x => x != d && !pathUnder d x) }

/-- `shutil.rmtree`: removes the whole subtree, raising when the directory does
not exist. -/
def rmtree (fs : FS) (d : String) : Except Unit FS :=
  if fs.isDir d then .ok (fs.removeTree d) else .error ()

/-- Contents of the archive produced from directory `d` (a rendering of the
subtree, enough to distinguish fresh archives from stale ones). -/
def zipContents (fs : FS) (d : String) : String :=
  String.intercalate ";"
    ((fs.files.filter (fun f => pathUnder d f.1)).map (fun f => f.1 ++ "=" ++ f.2))

/-- `shutil.make_archive(base, "zip", srcDir)`: CPython first runs
`os.stat(srcDir)`, which raises when the directory is missing; otherwise the
file `base ++ ".zip"` is created and the compression counter advances. -/
def make_archive (fs : FS) (base srcDir : String) : Except Unit FS :=
  if fs.isDir srcDir then
    .ok { fs.writeFile (base ++ ".zip") (zipContents fs srcDir) with
          zipCount := fs.zipCount + 1 }
  else .error ()

/-- Modelled from the spec: MainDescriptor (section 3).  The concrete class
lives in the external maps4fs package, outside `src/`; numeric fields are
modelled by the string form in which the catalog renders them. -/
structure MainSettings where
  game : String
  version : String
  date : String
  time : String
  latitude : String
  longitude : String
  size : String
  output_size : String
  rotation : String
  dtm_provider : String
  country : String
  completed : Bool
  error : Bool
  api_request : Bool
  custom_osm : Bool
deriving Repr, DecidableEq

/-- Modelled from the spec: GenerationDescriptor (section 3), treated as opaque
by the catalog core. -/
structure GenerationSettings where
  raw : String
deriving Repr, DecidableEq

/-- `MapEntry._default_name`: built from creation date, time and coordinates. -/
def default_name (ms : MainSettings) : String :=
  ms.date ++ " at " ++ ms.time ++ " - " ++ ms.latitude ++ ", " ++ ms.longitude

/-- `MapEntry._find_name` together with the `update_name` writes it performs:
if `name.txt` is missing it is first created with the default name; the file is
then read and stripped; if the stripped content is empty the default name is
assigned and written back.  Returns the resolved name and the updated state. -/
def find_name (fs : FS) (directory : String) (ms : MainSettings) : String × FS :=
  let path := directory ++ "/name.txt"
  let fs1 := if fs.isFile path then fs else fs.writeFile path (default_name ms)
  let name := pyStrip (fs1.readFile path)
  if name == "" then
    let d := default_name ms
    (d, fs1.writeFile path d)
  else (name, fs1)

/-- A catalog entry (`MapEntry`): directory, its base name, the two parsed
descriptors, the resolved display name and the page tag. -/
structure MapEntry where
  directory : String
  directory_name : String
  main_settings : MainSettings
  generation_settings : GenerationSettings
  name : String
  page : Int
deriving Repr, DecidableEq

/-- `MapEntry.__init__`: stores the directory and its base name and resolves the
display name through `find_name` (which may write `name.txt`). -/
def MapEntry.create (fs : FS) (directory : String) (ms : MainSettings)
    (gs : GenerationSettings) (page : Int) : MapEntry × FS :=
  let r := find_name fs directory ms
  (⟨directory, basename directory, ms, gs, r.1, page⟩, r.2)

def MapEntry.completed (e : MapEntry) : Bool := e.main_settings.completed

def MapEntry.error (e : MapEntry) : Bool := e.main_settings.error

def MapEntry.api_request (e : MapEntry) : Bool := e.main_settings.api_request

def Parameters.COMPLETE : String := "Complete"

def Parameters.INCOMPLETE : String := "Incomplete"

def Parameters.ERROR : String := "Error"

def Parameters.API : String := "API"

/-- `MapEntry.matches_filter`: true on an empty filter list, otherwise true when
some selected status name maps to a satisfied predicate (unknown names are
skipped, exactly as the source's dictionary lookup does). -/
def matches_filter (e : MapEntry) (filters : List String) : Bool :=
  if filters.isEmpty then true
  else filters.any (fun f =>
    if f == Parameters.COMPLETE then e.completed
    else if f == Parameters.INCOMPLETE then !e.completed
    else if f == Parameters.ERROR then e.error
    else if f == Parameters.API then e.api_request
    else false)

/-- `MapEntry.matches_search`: in public (restricted) mode an exact
case-insensitive comparison with the directory base name; otherwise an empty
query matches everything and a non-empty query is a case-insensitive substring
test against the display name. -/
def matches_search (e : MapEntry) (search_input : String) (pub : Bool) : Bool :=
  if pub then pyLower search_input == pyLower e.directory_name
  else if search_input == "" then true
  else hasSubstr (pyLower search_input).data (pyLower e.name).data

/-- The deterministic archive path `<root>/<directory-id>.zip`. -/
def archive_path (root directory : String) : String :=
  root ++ "/" ++ basename directory ++ ".zip"

/-- `MapEntry._archive`: note that the source computes the `make_archive` base
name with `full_archive_path.replace(".zip", "")`, which removes every
occurrence of `".zip"`, and that its `do_not_check` parameter is unused. -/
def archiveOp (fs : FS) (root directory : String) : Except Unit (String × FS) :=
  let full := archive_path root directory
  let base := stripZip full
  if fs.isFile full then .ok (full, fs)
  else
    match make_archive fs base directory with
    | .ok fs1 => .ok (full, fs1)
    | .error e => .error e

/-- The delete-button handler of `MapEntry.get_ui`: `rmtree` the directory,
call `_archive(do_not_check=True)` (whose flag `_archive` ignores), remove the
returned archive path if it is a file; any exception yields `False`. -/
def delete_entry (fs : FS) (root directory : String) : Bool × FS :=
  match rmtree fs directory with
  | .error _ => (false, fs)
  | .ok fs1 =>
    match archiveOp fs1 root directory with
    | .error _ => (false, fs1)
    | .ok r =>
      (true, if r.2.isFile r.1 then r.2.removeFile r.1 else r.2)

/-- `MyMapsUI.get_map_entry`: `parseMain` and `parseGen` abstract the
`json.load` plus `from_json` stages (both external to `src/`); any failure of
either stage is represented by `none`.  The entry construction itself resolves
the display name, possibly writing `name.txt`. -/
def get_map_entry (parseMain : String → Option MainSettings)
    (parseGen : String → Option GenerationSettings)
    (fs : FS) (directory_path : String) (page : Int) : Option MapEntry × FS :=
  let msp := directory_path ++ "/main_settings.json"
  let gsp := directory_path ++ "/generation_settings.json"
  if !fs.isFile msp || !fs.isFile gsp then (none, fs)
  else
    match parseMain (fs.readFile msp) with
    | none => (none, fs)
    | some ms =>
      match parseGen (fs.readFile gsp) with
      | none => (none, fs)
      | some gs =>
        let r := MapEntry.create fs directory_path ms gs page
        (some r.1, r.2)

/-- The regex `DIR_PATTERN = r"^(\d+_\d+)_fs"` applied with `re.match`: anchored
at the start, one or more digits, an underscore, one or more digits, then the
literal `_fs`, with no end anchor.  Both `\d+` groups are forced (each is
followed by a non-digit literal), so the backtracking regex is equivalent to
this greedy scan. -/
def matchesDirPattern (s : String) : Bool :=
  let l := s.data
  let d1 := l.takeWhile Char.isDigit
  let r1 := l.dropWhile Char.isDigit
  match r1 with
  | '_' :: r2 =>
    let d2 := r2.takeWhile Char.isDigit
    let r3 := r2.dropWhile Char.isDigit
    !d1.isEmpty && (!d2.isEmpty && ['_', 'f', 's'].isPrefixOf r3)
  | _ => false

/-- Python's `<=` on strings: lexicographic comparison by code point. -/
def charListLe : List Char → List Char → Bool
  | [], _ => true
  | _ :: _, [] => false
  | a :: as, b :: bs =>
    if a < b then true else if b < a then false else charListLe as bs

/-- Python's `<` on strings: strict lexicographic comparison by code point. -/
def charListLt : List Char → List Char → Bool
  | [], [] => false
  | [], _ :: _ => true
  | _ :: _, [] => false
  | a :: as, b :: bs =>
    if a < b then true else if b < a then false else charListLt as bs

/-- Python `sorted(matches, reverse=True)`: sort descending under the
code-point lexicographic order.  Any sorting algorithm produces the same list
on a linear order, so insertion sort is a faithful model. -/
def sortedDesc (l : List String) : List String :=
  List.insertionSort (fun a b => charListLe b.data a.data = true) l

/-- `MyMapsUI.find_map_directories` over a directory listing given as
(name, is-directory) pairs: keep directories, apply the naming pattern when
`usePattern` is set, and sort descending. -/
def find_map_directories (listing : List (String × Bool)) (usePattern : Bool) :
    List String :=
  sortedDesc ((listing.filter
    (fun e => e.2 && (!usePattern || matchesDirPattern e.1))).map Prod.fst)

def PAGE_SIZE : Nat := 5

/-- `math.ceil(n / PAGE_SIZE)` for a natural count `n`. -/
def ceilPages (n : Nat) : Nat := (n + (PAGE_SIZE - 1)) / PAGE_SIZE

/-- Normalisation of one Python slice index against a list length. -/
def pyIndex (len : Nat) (i : Int) : Nat :=
  if i < 0 then (i + len).toNat else min i.toNat len

/-- Python list slicing `l[a:b]` for integer indices. -/
def pySlice (l : List α) (a b : Int) : List α :=
  (l.take (pyIndex l.length b)).drop (pyIndex l.length a)

/-- The filtering step of `MyMapsUI.build_page`: keep entries matching both the
status filter and the search query, preserving order. -/
def filtered_entries (entries : List MapEntry) (filters : List String)
    (search : String) (pub : Bool) : List MapEntry :=
  entries.filter (fun e => matches_filter e filters && matches_search e search pub)

/-- `MyMapsUI.build_page` (with the directory scan and descriptor loading
factored into the `entries` argument): filter, recompute the session total-page
count via `update_total_pages`, and slice with
`first = (page-1)*PAGE_SIZE`, `last = min(first+PAGE_SIZE, count)` using Python
slice semantics.  No clamping of `currentPage` happens here. -/
def build_page (entries : List MapEntry) (filters : List String) (search : String)
    (pub : Bool) (currentPage : Int) : List MapEntry × Nat :=
  let filtered := filtered_entries entries filters search pub
  let firstIdx : Int := (currentPage - 1) * (PAGE_SIZE : Int)
  let lastIdx : Int := min (firstIdx + (PAGE_SIZE : Int)) (filtered.length : Int)
  (pySlice filtered firstIdx lastIdx, ceilPages filtered.length)

/-- `MyMapsUI.__init__` line 427: `self.total_pages` is computed from the
unfiltered directory scan, before any filtering. -/
def init_total_pages (listing : List (String × Bool)) : Nat :=
  ceilPages (find_map_directories listing true).length

/-- `MyMapsUI.previous_page`: steps back only when the current page exceeds 1. -/
def previous_page (current : Int) : Int :=
  if 1 < current then current - 1 else current

/-- `MyMapsUI.next_page`: steps forward only while below `self.total_pages`
(the value computed in `__init__`, not the session value). -/
def next_page (current selfTotalPages : Int) : Int :=
  if current < selfTotalPages then current + 1 else current

/-! ### Basic lemmas about the string and filesystem primitives -/

lemma string_data_append (a b : String) : (a ++ b).data = a.data ++ b.data := rfl

lemma stringMk_data (s : String) : String.mk s.data = s := rfl

lemma stringMk_eq_empty_iff (l : List Char) : String.mk l = "" ↔ l = [] := by
  constructor
  · intro h
    have h2 : (String.mk l).data = ("" : String).data := by rw [h]
    simpa using h2
  · intro h
    rw [h]

lemma hasSubstr_iff (pat hay : List Char) : hasSubstr pat hay = true ↔ pat <:+: hay := by
  induction hay with
  | nil => simp [hasSubstr, List.isEmpty_iff]
  | cons c t ih => simp [hasSubstr, ih, List.infix_cons_iff]

lemma mem_dropWhile_of_not {p : Char → Bool} {c : Char} {l : List Char}
    (h : c ∈ l) (hc : p c = false) : c ∈ l.dropWhile p := by
  induction l with
  | nil => simp at h
  | cons a t ih =>
    by_cases ha : p a
    · rw [List.dropWhile_cons_of_pos ha]
      rcases List.mem_cons.1 h with h1 | h1
      · subst h1; rw [ha] at hc; simp at hc
      · exact ih h1
    · rw [List.dropWhile_cons_of_neg ha]
      exact h

lemma pyStrip_ne_empty {s : String} (h : ∃ c ∈ s.data, c.isWhitespace = false) :
    pyStrip s ≠ "" := by
  obtain ⟨c, hc, hw⟩ := h
  have h1 : c ∈ (s.data.dropWhile Char.isWhitespace) := mem_dropWhile_of_not hc hw
  have h2 : c ∈ ((s.data.dropWhile Char.isWhitespace).reverse.dropWhile Char.isWhitespace) :=
    mem_dropWhile_of_not (List.mem_reverse.2 h1) hw
  intro hcon
  rw [pyStrip, stringMk_eq_empty_iff] at hcon
  rw [List.reverse_eq_nil_iff] at hcon
  rw [hcon] at h2
  simp at h2

lemma FS.isFile_writeFile_self (fs : FS) (p c : String) :
    (fs.writeFile p c).isFile p = true := by
  simp [FS.isFile, FS.writeFile]

lemma FS.readFile_writeFile_self (fs : FS) (p c : String) :
    (fs.writeFile p c).readFile p = c := by
  simp [FS.readFile, FS.writeFile, List.find?]

/-! ### Sample data used by witnesses and counterexamples -/

/-- A sample MainDescriptor. -/
def msA : MainSettings :=
  ⟨"fs25", "2.0.0", "2024-01-02", "10:11", "45.28", "20.23", "2048", "2048",
   "25", "SRTM30", "RS", true, false, false, false⟩

/-- A sample catalog entry. -/
def entryA : MapEntry :=
  ⟨"root/12_1_fs25", "12_1_fs25", msA, ⟨"{}"⟩, "My Map", 1⟩

/-! ### Claim C8: matches_filter -/

lemma filter_pred_iff (e : MapEntry) (f : String) :
    (if f == Parameters.COMPLETE then e.completed
     else if f == Parameters.INCOMPLETE then !e.completed
     else if f == Parameters.ERROR then e.error
     else if f == Parameters.API then e.api_request
     else false) = true ↔
    ((f = "Complete" ∧ e.completed = true) ∨
     (f = "Incomplete" ∧ e.completed = false) ∨
     (f = "Error" ∧ e.error = true) ∨
     (f = "API" ∧ e.api_request = true)) := by
  simp only [Parameters.COMPLETE, Parameters.INCOMPLETE, Parameters.ERROR,
    Parameters.API, beq_iff_eq]
  split_ifs with h1 h2 h3 h4 <;> subst_vars <;> simp_all

/-- Claim C8: `matches_filter` has OR semantics over the four status
predicates, an empty selection matches every entry, and selecting only the
error status matches exactly the entries whose error flag is set. -/
theorem C8_matches_filter (e : MapEntry) (filters : List String) :
    (matches_filter e filters = true ↔
      (filters = [] ∨ ∃ f ∈ filters,
        (f = "Complete" ∧ e.completed = true) ∨
        (f = "Incomplete" ∧ e.completed = false) ∨
        (f = "Error" ∧ e.error = true) ∨
        (f = "API" ∧ e.api_request = true))) ∧
    matches_filter e [] = true ∧
    (matches_filter e [Parameters.ERROR] = true ↔ e.error = true) := by
  refine ⟨?_, by simp [matches_filter], ?_⟩
  · rcases filters with _ | ⟨g, gs⟩
    · simp [matches_filter]
    · have h1 : matches_filter e (g :: gs) = (g :: gs).any (fun f =>
        if f == Parameters.COMPLETE then e.completed
        else if f == Parameters.INCOMPLETE then !e.completed
        else if f == Parameters.ERROR then e.error
        else if f == Parameters.API then e.api_request
        else false) := by
        simp [matches_filter]
      rw [h1, List.any_eq_true]
      constructor
      · rintro ⟨x, hx, hp⟩
        exact Or.inr ⟨x, hx, (filter_pred_iff e x).1 hp⟩
      · rintro (hc | ⟨x, hx, hp⟩)
        · exact absurd hc (List.cons_ne_nil g gs)
        · exact ⟨x, hx, (filter_pred_iff e x).2 hp⟩
  · simp only [matches_filter, List.isEmpty_cons, Bool.false_eq_true,
      if_false, List.any_cons, List.any_nil, Bool.or_false, beq_iff_eq]
    rw [if_neg (by decide), if_neg (by decide), if_pos (by decide)]

/-! ### Claim C5: matches_search -/

/-- Claim C5: in restricted (public) mode `matches_search` is exact
case-insensitive equality with the directory identifier; in normal mode the
empty query matches everything and a non-empty query is case-insensitive
substring containment in the display name. -/
theorem C5_matches_search (e : MapEntry) (q : String) (hq : q ≠ "") :
    (matches_search e q true = true ↔ pyLower q = pyLower e.directory_name) ∧
    matches_search e "" false = true ∧
    (matches_search e q false = true ↔
      (pyLower q).data <:+: (pyLower e.name).data) := by
  refine ⟨?_, ?_, ?_⟩
  · simp [matches_search]
  · simp [matches_search]
  · have hq2 : (q == "") = false := by simpa using hq
    simp [matches_search, hq2, hasSubstr_iff]

theorem C5_matches_search_witness :
    (matches_search entryA "ab" true = true ↔
      pyLower "ab" = pyLower entryA.directory_name) ∧
    matches_search entryA "" false = true ∧
    (matches_search entryA "ab" false = true ↔
      (pyLower "ab").data <:+: (pyLower entryA.name).data) :=
  C5_matches_search entryA "ab" (by decide)

/-! ### Claim C10: restricted mode and the empty query -/

/-- Claim C10: in restricted mode the empty query matches no entry whose
directory identifier is non-empty. -/
theorem C10_restricted_empty (e : MapEntry) (h : e.directory_name ≠ "") :
    matches_search e "" true = false := by
  have hd : e.directory_name.data ≠ [] := by
    intro hc
    apply h
    have h2 : String.mk e.directory_name.data = String.mk [] := by rw [hc]
    rw [stringMk_data] at h2
    rw [h2]
  have hne : pyLower "" ≠ pyLower e.directory_name := by
    intro hc
    apply hd
    have h3 := congrArg String.data hc
    simp only [pyLower] at h3
    have h4 : e.directory_name.data.map Char.toLower = [] := by
      rw [← h3]
      rfl
    simpa using h4
  simp only [matches_search, if_pos]
  simpa using hne

theorem C10_restricted_empty_witness : matches_search entryA "" true = false :=
  C10_restricted_empty entryA (by decide)

/-! ### Claim C6: get_map_entry -/

/-- Claim C6: the loader produces an entry exactly when both descriptor files
exist and both parse; any missing file or failed parse yields `none`, and the
embedding is a total function, so no parse-time failure escapes this boundary. -/
theorem C6_get_map_entry (parseMain : String → Option MainSettings)
    (parseGen : String → Option GenerationSettings)
    (fs : FS) (dir : String) (page : Int) :
    (get_map_entry parseMain parseGen fs dir page).1.isSome = true ↔
      (fs.isFile (dir ++ "/main_settings.json") = true ∧
       fs.isFile (dir ++ "/generation_settings.json") = true ∧
       (parseMain (fs.readFile (dir ++ "/main_settings.json"))).isSome = true ∧
       (parseGen (fs.readFile (dir ++ "/generation_settings.json"))).isSome = true) := by
  simp only [get_map_entry]
  cases hm : fs.isFile (dir ++ "/main_settings.json") <;>
    cases hg : fs.isFile (dir ++ "/generation_settings.json") <;>
      simp only [Bool.not_true, Bool.not_false, Bool.false_or, Bool.or_false,
        Bool.true_or, Bool.or_true, if_true, if_false] <;>
    simp_all
  cases hpm : parseMain (fs.readFile (dir ++ "/main_settings.json")) <;>
    cases hpg : parseGen (fs.readFile (dir ++ "/generation_settings.json")) <;>
      simp [hpm, hpg]

/-! ### Claim C7: find_map_directories -/

lemma charListLe_total : ∀ l1 l2 : List Char,
    charListLe l1 l2 = true ∨ charListLe l2 l1 = true
  | [], _ => Or.inl rfl
  | _ :: _, [] => Or.inr rfl
  | a :: as, b :: bs => by
    by_cases hab : a < b
    · exact Or.inl (by simp [charListLe, hab])
    · by_cases hba : b < a
      · exact Or.inr (by simp [charListLe, hba])
      · rcases charListLe_total as bs with h | h
        · exact Or.inl (by simp [charListLe, hab, hba, h])
        · exact Or.inr (by simp [charListLe, hab, hba, h])

lemma charListLe_trans : ∀ l1 l2 l3 : List Char, charListLe l1 l2 = true →
    charListLe l2 l3 = true → charListLe l1 l3 = true
  | [], _, _, _, _ => rfl
  | _ :: _, [], _, h1, _ => by simp [charListLe] at h1
  | _ :: _, _ :: _, [], _, h2 => by simp [charListLe] at h2
  | a :: as, b :: bs, c :: cs, h1, h2 => by
    simp only [charListLe] at h1 h2 ⊢
    by_cases hab : a < b
    · by_cases hbc : b < c
      · rw [if_pos (lt_trans hab hbc)]
      · by_cases hcb : c < b
        · rw [if_neg hbc, if_pos hcb] at h2
          exact absurd h2 (by simp)
        · have heq : b = c := le_antisymm (not_lt.1 hcb) (not_lt.1 hbc)
          subst heq
          rw [if_pos hab]
    · by_cases hba : b < a
      · rw [if_neg hab, if_pos hba] at h1
        exact absurd h1 (by simp)
      · have heq : a = b := le_antisymm (not_lt.1 hba) (not_lt.1 hab)
        subst heq
        rw [if_neg (lt_irrefl a), if_neg (lt_irrefl a)] at h1
        by_cases hac : a < c
        · rw [if_pos hac]
        · by_cases hca : c < a
          · rw [if_neg hac, if_pos hca] at h2
            exact absurd h2 (by simp)
          · rw [if_neg hac, if_neg hca] at h2 ⊢
            exact charListLe_trans as bs cs h1 h2

lemma charListLe_antisymm : ∀ l1 l2 : List Char, charListLe l1 l2 = true →
    charListLe l2 l1 = true → l1 = l2
  | [], [], _, _ => rfl
  | [], _ :: _, _, h2 => by simp [charListLe] at h2
  | _ :: _, [], h1, _ => by simp [charListLe] at h1
  | a :: as, b :: bs, h1, h2 => by
    simp only [charListLe] at h1 h2
    by_cases hab : a < b
    · rw [if_neg (asymm hab), if_pos hab] at h2
      exact absurd h2 (by simp)
    · by_cases hba : b < a
      · rw [if_neg hab, if_pos hba] at h1
        exact absurd h1 (by simp)
      · have heq : a = b := le_antisymm (not_lt.1 hba) (not_lt.1 hab)
        subst heq
        rw [if_neg hab, if_neg hab] at h1 h2
        rw [charListLe_antisymm as bs h1 h2]

lemma charListLt_of_le_of_ne : ∀ l1 l2 : List Char, charListLe l1 l2 = true →
    l1 ≠ l2 → charListLt l1 l2 = true
  | [], [], _, hne => absurd rfl hne
  | [], _ :: _, _, _ => rfl
  | _ :: _, [], h1, _ => by simp [charListLe] at h1
  | a :: as, b :: bs, h1, hne => by
    simp only [charListLe] at h1
    simp only [charListLt]
    by_cases hab : a < b
    · rw [if_pos hab]
    · by_cases hba : b < a
      · rw [if_neg hab, if_pos hba] at h1
        exact absurd h1 (by simp)
      · have heq : a = b := le_antisymm (not_lt.1 hba) (not_lt.1 hab)
        subst heq
        rw [if_neg hab, if_neg hab]
        rw [if_neg hab, if_neg hab] at h1
        refine charListLt_of_le_of_ne as bs h1 (fun hc => hne (by rw [hc]))

instance decRelDescString :
    DecidableRel (fun a b : String => charListLe b.data a.data = true) :=
  fun a b => inferInstanceAs (Decidable (charListLe b.data a.data = true))

instance isTotalDescString : IsTotal String (fun a b => charListLe b.data a.data = true) :=
  ⟨fun a b => charListLe_total b.data a.data⟩

instance isTransDescString : IsTrans String (fun a b => charListLe b.data a.data = true) :=
  ⟨fun _ b _ h1 h2 => charListLe_trans _ b.data _ h2 h1⟩

instance isAntisymmDescString :
    IsAntisymm String (fun a b => charListLe b.data a.data = true) :=
  ⟨fun a b h1 h2 => by
    have hd : b.data = a.data := charListLe_antisymm b.data a.data h1 h2
    have := congrArg String.mk hd
    rwa [stringMk_data, stringMk_data, eq_comm] at this⟩

/-- Claim C7: the directory scan returns exactly the names of immediate
subdirectories matching the start-anchored pattern digits-underscore-digits-
underscore-fs (trailing content allowed), in strictly descending lexicographic
order (`charListLt` is Python's code-point string comparison). -/
theorem C7_find_map_directories (listing : List (String × Bool))
    (h : (listing.map Prod.fst).Nodup) :
    (∀ s, s ∈ find_map_directories listing true ↔
      ((s, true) ∈ listing ∧ matchesDirPattern s = true)) ∧
    (find_map_directories listing true).Pairwise
      (fun a b => charListLt b.data a.data = true) ∧
    (∀ t : String, matchesDirPattern ("12_34_fs" ++ t) = true) := by
  refine ⟨?_, ?_, ?_⟩
  · intro s
    simp only [find_map_directories, sortedDesc, List.mem_insertionSort,
      List.mem_map, List.mem_filter, Bool.and_eq_true, Bool.not_true,
      Bool.false_or]
    constructor
    · rintro ⟨⟨a, b⟩, ⟨hab, hb, hpat⟩, rfl⟩
      exact ⟨by rwa [← hb], hpat⟩
    · rintro ⟨hmem, hpat⟩
      exact ⟨(s, true), ⟨hmem, rfl, hpat⟩, rfl⟩
  · have hs := List.sorted_insertionSort (fun a b : String => charListLe b.data a.data = true)
      ((listing.filter (fun e => e.2 && (!true || matchesDirPattern e.1))).map Prod.fst)
    have hnd : (find_map_directories listing true).Nodup := by
      have hsub : ((listing.filter
          (fun e => e.2 && (!true || matchesDirPattern e.1))).map Prod.fst).Sublist
          (listing.map Prod.fst) :=
        (List.filter_sublist listing).map Prod.fst
      have hnd0 := h.sublist hsub
      exact ((List.perm_insertionSort
        (fun a b : String => charListLe b.data a.data = true) _).nodup_iff).2 hnd0
    have hcomb := List.Pairwise.and hs hnd
    refine hcomb.imp (fun hab => ?_)
    refine charListLt_of_le_of_ne _ _ hab.1 (fun hc => hab.2 ?_)
    have := congrArg String.mk hc
    rwa [stringMk_data, stringMk_data, eq_comm] at this
  · intro t
    have hdata : ("12_34_fs" ++ t).data =
        '1' :: '2' :: '_' :: '3' :: '4' :: '_' :: 'f' :: 's' :: t.data := rfl
    simp only [matchesDirPattern, hdata]
    rw [List.takeWhile_cons_of_pos (by decide), List.takeWhile_cons_of_pos (by decide),
      List.takeWhile_cons_of_neg (by decide), List.dropWhile_cons_of_pos (by decide),
      List.dropWhile_cons_of_pos (by decide), List.dropWhile_cons_of_neg (by decide)]
    simp only []
    rw [List.takeWhile_cons_of_pos (by decide), List.takeWhile_cons_of_pos (by decide),
      List.takeWhile_cons_of_neg (by decide), List.dropWhile_cons_of_pos (by decide),
      List.dropWhile_cons_of_pos (by decide), List.dropWhile_cons_of_neg (by decide)]
    simp [List.isPrefixOf]

/-- A sample directory listing for the witness: one matching directory, one
matching with trailing content, one non-directory and two non-matching names. -/
def listingA : List (String × Bool) :=
  [("2_1_fs", true), ("10_1_fsX", true), ("fs_1_2", true), ("3_1_fs", false),
   ("previews", true)]

theorem C7_find_map_directories_witness :
    ("2_1_fs" ∈ find_map_directories listingA true ↔
      (("2_1_fs", true) ∈ listingA ∧ matchesDirPattern "2_1_fs" = true)) ∧
    (find_map_directories listingA true).Pairwise
      (fun a b => charListLt b.data a.data = true) :=
  ⟨(C7_find_map_directories listingA (by decide)).1 "2_1_fs",
   (C7_find_map_directories listingA (by decide)).2.1⟩

/-! ### Claims C1 and C3: pagination -/

/-- Normal form of the Python slice produced by `build_page`. -/
lemma take_min_drop (l : List MapEntry) (f : Nat) :
    (l.take (min (f + 5) l.length)).drop (min f l.length) = (l.drop f).take 5 := by
  by_cases hfn : f ≤ l.length
  · rw [show min f l.length = f by omega, List.drop_take]
    rw [List.take_eq_take]
    simp only [List.length_drop]
    omega
  · rw [show min f l.length = l.length by omega,
      show min (f + 5) l.length = l.length by omega]
    rw [List.drop_take]
    simp only [Nat.sub_self, List.take_zero]
    rw [List.drop_eq_nil_of_le (by omega)]
    simp

/-- A numbered sample entry used to build concrete entry lists. -/
def mkEntryNum (i : Nat) (c : Bool) : MapEntry :=
  ⟨"root/" ++ toString i ++ "_1_fs25", toString i ++ "_1_fs25",
   { msA with completed := c }, ⟨"{}"⟩, "Map " ++ toString i, 1⟩

/-- Twelve entries that all pass an empty filter and an empty search. -/
def entriesB : List MapEntry := (List.range 12).map (fun i => mkEntryNum i true)

/-- Claim C1 counterexample: `build_page` does not clamp the requested page.
With 12 filtered entries and page size 5, requesting page 0 or page 4 yields an
empty page, while pages 1 and 3 hold 5 and 2 items; in particular page 0 does
not yield page 1's five items. -/
theorem C1_counterexample :
    (build_page entriesB [] "" false 0).1 = [] ∧
    (build_page entriesB [] "" false 4).1 = [] ∧
    (build_page entriesB [] "" false 1).1.length = 5 ∧
    (build_page entriesB [] "" false 3).1.length = 2 ∧
    (build_page entriesB [] "" false 0).1 ≠ (build_page entriesB [] "" false 1).1 := by
  refine ⟨rfl, rfl, rfl, rfl, by decide⟩

/-- Claim C1 (amended): the navigation callbacks clamp the page into
`[1, total]` by refusing to step outside, while `build_page` itself slices
without clamping; for a requested page `≥ 1` the result is exactly the window
of `PAGE_SIZE` entries starting at `(page-1)*PAGE_SIZE` in the filtered list
(empty when that start lies past the end). -/
theorem C1_amended (entries : List MapEntry) (filters : List String)
    (search : String) (pub : Bool) (page current total : Int) :
    (1 ≤ current → 1 ≤ previous_page current ∧ previous_page current ≤ current) ∧
    (current ≤ total → current ≤ next_page current total ∧ next_page current total ≤ total) ∧
    (1 ≤ page →
      (build_page entries filters search pub page).1 =
        ((filtered_entries entries filters search pub).drop
          (((page - 1) * (PAGE_SIZE : Int)).toNat)).take PAGE_SIZE) := by
  refine ⟨?_, ?_, ?_⟩
  · intro h
    simp only [previous_page]
    split_ifs <;> omega
  · intro h
    simp only [next_page]
    split_ifs <;> omega
  · intro hp
    simp only [build_page, pySlice, pyIndex, PAGE_SIZE]
    push_cast
    set l := filtered_entries entries filters search pub with hl
    rw [if_neg (by omega), if_neg (by omega)]
    rw [show ((min ((page - 1) * (5 : Int) + 5) (l.length : Int)).toNat ⊓ l.length)
        = min (((page - 1) * (5 : Int)).toNat + 5) l.length from by omega]
    exact take_min_drop l ((page - 1) * (5 : Int)).toNat

theorem C1_amended_witness :
    (1 ≤ previous_page 2 ∧ previous_page 2 ≤ 2) ∧
    (2 ≤ next_page 2 3 ∧ next_page 2 3 ≤ 3) ∧
    (build_page entriesB [] "" false 1).1 =
      ((filtered_entries entriesB [] "" false).drop
        (((1 - 1) * (PAGE_SIZE : Int)).toNat)).take PAGE_SIZE :=
  ⟨(C1_amended entriesB [] "" false 1 2 3).1 (by decide),
   (C1_amended entriesB [] "" false 1 2 3).2.1 (by decide),
   (C1_amended entriesB [] "" false 1 2 3).2.2 (by decide)⟩

/-- Twelve matching directory names, so that the unfiltered scan spans 3 pages. -/
def listingB : List (String × Bool) :=
  [("21_1_fs", true), ("20_1_fs", true), ("19_1_fs", true), ("18_1_fs", true),
   ("17_1_fs", true), ("16_1_fs", true), ("15_1_fs", true), ("14_1_fs", true),
   ("13_1_fs", true), ("12_1_fs", true), ("11_1_fs", true), ("10_1_fs", true)]

/-- Twelve entries of which exactly 7 are completed. -/
def entriesC : List MapEntry :=
  (List.range 12).map (fun i => mkEntryNum i (decide (i < 7)))

/-- Claim C3 counterexample: with 12 matching directories but only 7 entries
passing the Complete filter, `build_page` stores the filtered total (2 pages)
in the session state, yet `self.total_pages` from `__init__` is 3 (derived from
the unfiltered count) and `next_page` uses that value, letting the page advance
to 3, one past the filtered total. -/
theorem C3_counterexample :
    init_total_pages listingB = 3 ∧
    (build_page entriesC [Parameters.COMPLETE] "" false 1).2 = 2 ∧
    next_page 2 (init_total_pages listingB : Int) = 3 := by
  refine ⟨by decide, by decide, by decide⟩

/-- Claim C3 (amended): the session total recomputed by `build_page` on every
run is exactly `ceil(filtered_count / PAGE_SIZE)` — zero exactly on an empty
filtered set — but `__init__`'s `self.total_pages` (used by `next_page` and the
controls' visibility) is the ceiling over the unfiltered directory count. -/
theorem C3_amended (entries : List MapEntry) (filters : List String)
    (search : String) (pub : Bool) (page : Int) :
    ((build_page entries filters search pub page).2 = 0 ↔
      filtered_entries entries filters search pub = []) ∧
    (filtered_entries entries filters search pub).length ≤
      PAGE_SIZE * (build_page entries filters search pub page).2 ∧
    PAGE_SIZE * (build_page entries filters search pub page).2 <
      (filtered_entries entries filters search pub).length + PAGE_SIZE := by
  have hsnd : (build_page entries filters search pub page).2 =
      ceilPages (filtered_entries entries filters search pub).length := rfl
  rw [hsnd]
  refine ⟨?_, ?_, ?_⟩
  · simp only [ceilPages, PAGE_SIZE]
    rw [← List.length_eq_zero]
    omega
  · simp only [ceilPages, PAGE_SIZE]
    omega
  · simp only [ceilPages, PAGE_SIZE]
    omega

/-! ### Claim C9: display-name resolution -/

lemma mem_a_default_name (ms : MainSettings) : 'a' ∈ (default_name ms).data := by
  simp only [default_name, string_data_append, List.mem_append]
  have h : 'a' ∈ (" at " : String).data := by decide
  tauto

lemma default_name_ne (ms : MainSettings) : default_name ms ≠ "" := by
  intro h
  have h2 := mem_a_default_name ms
  rw [congrArg String.data h] at h2
  simp at h2

lemma pyStrip_default_ne (ms : MainSettings) : pyStrip (default_name ms) ≠ "" :=
  pyStrip_ne_empty ⟨'a', mem_a_default_name ms, by decide⟩

/-- Claim C9: the resolved display name is never empty, and whenever the
sidecar file is missing or holds only whitespace, the default name derived from
date, time and coordinates is written back to the sidecar as a side effect. -/
theorem C9_find_name (fs : FS) (directory : String) (ms : MainSettings) :
    (find_name fs directory ms).1 ≠ "" ∧
    ((fs.isFile (directory ++ "/name.txt") = false ∨
      pyStrip (fs.readFile (directory ++ "/name.txt")) = "") →
      (find_name fs directory ms).2.readFile (directory ++ "/name.txt") =
        default_name ms) := by
  simp only [find_name]
  by_cases hf : fs.isFile (directory ++ "/name.txt") = true
  · rw [if_pos hf]
    by_cases hs : pyStrip (fs.readFile (directory ++ "/name.txt")) = ""
    · rw [if_pos (by simpa using hs)]
      exact ⟨default_name_ne ms, fun _ => FS.readFile_writeFile_self fs _ _⟩
    · rw [if_neg (by simpa using hs)]
      refine ⟨hs, fun hor => ?_⟩
      rcases hor with h1 | h1
      · rw [hf] at h1
        simp at h1
      · exact absurd h1 hs
  · rw [if_neg hf]
    rw [FS.readFile_writeFile_self]
    rw [if_neg (by simpa using pyStrip_default_ne ms)]
    exact ⟨pyStrip_default_ne ms, fun _ => FS.readFile_writeFile_self fs _ _⟩

/-- A state in which the entry directory exists but `name.txt` does not. -/
def fsC9 : FS := ⟨[], ["root/12_1_fs25"], 0⟩

theorem C9_find_name_witness :
    (find_name fsC9 "root/12_1_fs25" msA).1 ≠ "" ∧
    (find_name fsC9 "root/12_1_fs25" msA).2.readFile
      ("root/12_1_fs25" ++ "/name.txt") = default_name msA :=
  ⟨(C9_find_name fsC9 "root/12_1_fs25" msA).1,
   (C9_find_name fsC9 "root/12_1_fs25" msA).2 (Or.inl (by decide))⟩

/-! ### Claim C4: the archive cache -/

lemma stripZipFuel_nil (fuel : Nat) : stripZipFuel fuel [] = [] := by
  cases fuel <;> rfl

lemma zipPat_append_cases : ∀ l : List Char,
    zipPat <+: (l ++ zipPat) → l = [] ∨ zipPat <+: l := by
  intro l hp
  rcases l with _ | ⟨c, l1⟩
  · exact Or.inl rfl
  · right
    obtain ⟨t, ht⟩ := hp
    simp only [zipPat, List.cons_append, List.nil_append, List.cons.injEq] at ht
    obtain ⟨rfl, ht⟩ := ht
    rcases l1 with _ | ⟨c2, l2⟩
    · rw [List.nil_append] at ht
      exact absurd (congrArg (fun l => l.head?) ht) (by simp [zipPat])
    · rw [List.cons_append, List.cons.injEq] at ht
      obtain ⟨rfl, ht⟩ := ht
      rcases l2 with _ | ⟨c3, l3⟩
      · rw [List.nil_append] at ht
        exact absurd (congrArg (fun l => l.head?) ht) (by simp [zipPat])
      · rw [List.cons_append, List.cons.injEq] at ht
        obtain ⟨rfl, ht⟩ := ht
        rcases l3 with _ | ⟨c4, l4⟩
        · rw [List.nil_append] at ht
          exact absurd (congrArg (fun l => l.head?) ht) (by simp [zipPat])
        · rw [List.cons_append, List.cons.injEq] at ht
          obtain ⟨rfl, _⟩ := ht
          exact ⟨l4, by simp [zipPat]⟩

lemma stripZipFuel_append : ∀ (fuel : Nat) (l : List Char), l.length + 4 ≤ fuel →
    ¬ zipPat <:+: l → stripZipFuel fuel (l ++ zipPat) = l := by
  intro fuel
  induction fuel with
  | zero =>
    intro l hl _
    exact absurd hl (by omega)
  | succ fuel ih =>
    intro l hl hni
    rcases l with _ | ⟨c, l1⟩
    · rw [List.nil_append]
      show stripZipFuel (fuel + 1) ('.' :: 'z' :: 'i' :: 'p' :: []) = []
      rw [show stripZipFuel (fuel + 1) ('.' :: 'z' :: 'i' :: 'p' :: []) =
        if zipPat.isPrefixOf ('.' :: 'z' :: 'i' :: 'p' :: []) then
          stripZipFuel fuel (('.' :: 'z' :: 'i' :: 'p' :: []).drop 4)
        else '.' :: stripZipFuel fuel ('z' :: 'i' :: 'p' :: []) from rfl]
      rw [if_pos (by decide)]
      exact stripZipFuel_nil fuel
    · rw [List.cons_append]
      rw [show stripZipFuel (fuel + 1) (c :: (l1 ++ zipPat)) =
        if zipPat.isPrefixOf (c :: (l1 ++ zipPat)) then
          stripZipFuel fuel ((c :: (l1 ++ zipPat)).drop 4)
        else c :: stripZipFuel fuel (l1 ++ zipPat) from rfl]
      by_cases hp : zipPat.isPrefixOf (c :: (l1 ++ zipPat))
      · exfalso
        have hp2 : zipPat <+: ((c :: l1) ++ zipPat) := by
          rw [List.cons_append]
          exact List.isPrefixOf_iff_prefix.1 hp
        rcases zipPat_append_cases (c :: l1) hp2 with h | h
        · exact absurd h (List.cons_ne_nil c l1)
        · exact hni h.isInfix
      · rw [if_neg hp]
        have hlen : l1.length + 4 ≤ fuel := by
          simp only [List.length_cons] at hl
          omega
        have hni1 : ¬ zipPat <:+: l1 := fun hi => hni (List.infix_cons hi)
        rw [ih l1 hlen hni1]

lemma stripZip_append (s : String) (h : hasSubstr zipPat s.data = false) :
    stripZip (s ++ ".zip") = s := by
  have hni : ¬ zipPat <:+: s.data := by
    rw [← hasSubstr_iff]
    simp [h]
  have hdata : (s ++ ".zip").data = s.data ++ zipPat := rfl
  simp only [stripZip, hdata]
  rw [show (s.data ++ zipPat).length = s.data.length + 4 from by simp [zipPat]]
  rw [stripZipFuel_append (s.data.length + 4) s.data (by omega) hni]

/-- A state holding an entry whose directory name contains `".zip"` and whose
archive has not been built. -/
def fsC4 : FS := ⟨[("root/1_2_fs.zipx/map.i3d", "data")], ["root", "root/1_2_fs.zipx"], 0⟩

/-- Claim C4 counterexample: for the (pattern-matching) directory name
`1_2_fs.zipx`, `_archive` returns `root/1_2_fs.zipx.zip` but — because the
source strips every occurrence of `".zip"` from the path to build the
`make_archive` base name — the archive is created at `root/1_2_fsx.zip`
instead, so no file exists at the returned path and a second call compresses
again (the compression counter reaches 2). -/
theorem C4_counterexample :
    ((archiveOp fsC4 "root" "root/1_2_fs.zipx").toOption.map Prod.fst =
      some "root/1_2_fs.zipx.zip") ∧
    ((archiveOp fsC4 "root" "root/1_2_fs.zipx").toOption.map
      (fun r => r.2.isFile "root/1_2_fs.zipx.zip") = some false) ∧
    ((archiveOp fsC4 "root" "root/1_2_fs.zipx").toOption.map
      (fun r => r.2.isFile "root/1_2_fsx.zip") = some true) ∧
    ((archiveOp fsC4 "root" "root/1_2_fs.zipx").toOption.map
      (fun r => (archiveOp r.2 "root" "root/1_2_fs.zipx").toOption.map
        (fun r2 => r2.2.zipCount)) = some (some 2)) := by
  refine ⟨by decide, by decide, by decide, by decide⟩

/-- Claim C4 (amended): for every entry whose root-plus-identifier path does
not contain `".zip"` as a proper substring, `_archive` is an idempotent cache:
it returns the deterministic path `<root>/<directory-id>.zip`, after the call a
file exists at exactly that path, and a second call is a pure cache hit that
returns the same path and leaves the state (hence the compression counter)
unchanged. -/
theorem C4_amended (fs : FS) (root directory : String)
    (hz : hasSubstr zipPat (root ++ "/" ++ basename directory).data = false)
    (hdir : fs.isDir directory = true) :
    ∃ fs1, archiveOp fs root directory = .ok (archive_path root directory, fs1) ∧
      fs1.isFile (archive_path root directory) = true ∧
      archiveOp fs1 root directory = .ok (archive_path root directory, fs1) := by
  have hbase : stripZip (archive_path root directory) =
      root ++ "/" ++ basename directory :=
    stripZip_append (root ++ "/" ++ basename directory) hz
  by_cases hfull : fs.isFile (archive_path root directory) = true
  · refine ⟨fs, ?_, hfull, ?_⟩
    · simp only [archiveOp]
      rw [if_pos hfull]
    · simp only [archiveOp]
      rw [if_pos hfull]
  · have hkey : stripZip (archive_path root directory) ++ ".zip" =
        archive_path root directory := by
      rw [hbase]
      rfl
    have harch : make_archive fs (stripZip (archive_path root directory)) directory =
        .ok { fs.writeFile (archive_path root directory) (zipContents fs directory) with
              zipCount := fs.zipCount + 1 } := by
      simp only [make_archive]
      rw [if_pos hdir, hkey]
    have hfile : FS.isFile
        { fs.writeFile (archive_path root directory) (zipContents fs directory) with
          zipCount := fs.zipCount + 1 } (archive_path root directory) = true := by
      simp [FS.isFile, FS.writeFile]
    refine ⟨_, ?_, hfile, ?_⟩
    · simp only [archiveOp]
      rw [if_neg hfull, harch]
    · simp only [archiveOp]
      rw [if_pos hfile]

/-- A state holding an ordinary entry with no archive built yet. -/
def fsC4w : FS := ⟨[("root/12_1_fs25/map.i3d", "d")], ["root", "root/12_1_fs25"], 0⟩

theorem C4_amended_witness :
    ∃ fs1, archiveOp fsC4w "root" "root/12_1_fs25" =
        .ok (archive_path "root" "root/12_1_fs25", fs1) ∧
      fs1.isFile (archive_path "root" "root/12_1_fs25") = true ∧
      archiveOp fs1 "root" "root/12_1_fs25" =
        .ok (archive_path "root" "root/12_1_fs25", fs1) :=
  C4_amended fsC4w "root" "root/12_1_fs25" (by decide) (by decide)

/-! ### Claim C2: the delete handler -/

/-- A state holding an entry directory with one descriptor file and no archive
file: the situation of every entry deleted before "Prepare download" was used. -/
def fsC2 : FS :=
  ⟨[("root/12_1_fs25/main_settings.json", "ms")], ["root", "root/12_1_fs25"], 0⟩

/-- Claim C2, evaluated at the failing input: with no archive present, the
delete handler removes the whole directory subtree (`rmtree` succeeds) but then
calls `_archive(do_not_check=True)` — whose flag `_archive` ignores — so
`make_archive` runs on the just-deleted directory and raises, and the handler
reports `False` even though the deletion succeeded. -/
theorem C2_delete_reports_failure :
    (delete_entry fsC2 "root" "root/12_1_fs25").1 = false ∧
    (delete_entry fsC2 "root" "root/12_1_fs25").2.isDir "root/12_1_fs25" = false ∧
    (delete_entry fsC2 "root" "root/12_1_fs25").2.isFile
      "root/12_1_fs25/main_settings.json" = false ∧
    (delete_entry fsC2 "root" "root/12_1_fs25").2.isFile "root/12_1_fs25.zip" = false := by
  refine ⟨by decide, by decide, by decide, by decide⟩
